import Mathlib

/-! Verification development for the hft-orderbook core: a single-symbol limit
order book with a continuous price-time-priority matching engine.

The repository ships only the Python-facing harnesses (tests, example,
benchmark) driving a `pyorderbook` binding; the core engine itself is not
among the source files.  Every definition below is therefore modelled from
the specification (spec.md sections 3, 4 and 7): the order record, price
levels as FIFO queues, side ladders as best-first sorted lists of levels,
the matching loop, and the facade operations with their rejection rules.

Conventions of the embedding:
- prices are rationals (the spec treats price keys as exact decimals reused
  verbatim, with no arithmetic beyond comparisons and the mid-price average);
- quantities and order ids are integers;
- each side ladder is a list of price levels sorted best-first (bids
  descending, asks ascending), each level a FIFO list of orders;
- the order index of the spec is realised by searching the ladders (spec
  invariant 1 makes the index extensionally equal to that search);
- a level's volume is the sum of its orders' remaining quantities (spec
  invariant 2 makes the cached volume equal to that sum);
- fallible facade operations return a `Bool × Book` pair: the success flag
  and the (possibly unchanged) book.
-/

/-- Modelled from the spec: the two sides of the book (section 3, Order). -/
inductive Side where
  | buy
  | sell
deriving DecidableEq

/-- Modelled from the spec: one working order — caller-supplied id, side,
limit price, mutable remaining quantity, and the arrival sequence assigned
at acceptance time (section 3, Order). -/
structure Order where
  id : Int
  side : Side
  price : ℚ
  qtyRemaining : Int
  arrivalSeq : Nat
deriving DecidableEq

/-- Modelled from the spec: an immutable trade record with contiguous
sequence numbers (section 3, Trade). -/
structure Trade where
  buyOrderId : Int
  sellOrderId : Int
  price : ℚ
  quantity : Int
  seq : Nat
deriving DecidableEq

/-- A trade produced by the matching engine before the facade stamps the
log sequence number onto it. -/
structure TradeFill where
  buyOrderId : Int
  sellOrderId : Int
  price : ℚ
  quantity : Int
deriving DecidableEq

/-- Modelled from the spec: a price level — the FIFO queue of resting
orders at one price on one side (section 3, Price level). -/
structure Level where
  price : ℚ
  orders : List Order
deriving DecidableEq

/-- A level's aggregate volume: the sum of its orders' remaining
quantities (spec invariant 2 equates the cached volume with this sum). -/
def Level.volume (l : Level) : Int :=
  (l.orders.map Order.qtyRemaining).sum

/-- Modelled from the spec: the book — symbol, both side ladders (lists of
levels sorted best-first), the append-only trade log, and the arrival
counter (section 3, Book). -/
structure Book where
  symbol : String
  bids : List Level
  asks : List Level
  trades : List Trade
  nextArrival : Nat
deriving DecidableEq

/-- A freshly created book: empty ladders, empty log (section 3, Book). -/
def emptyBook (sym : String) : Book :=
  ⟨sym, [], [], [], 0⟩

/-- Trade identities: buy/sell order ids are taken from the two orders by
their sides; the price is the resting order's price (section 4.5). -/
def mkFill (aggSide : Side) (aggId : Int) (resting : Order) (qty : Int) : TradeFill :=
  match aggSide with
  | .buy => ⟨aggId, resting.id, resting.price, qty⟩
  | .sell => ⟨resting.id, aggId, resting.price, qty⟩

/-- Modelled from the spec: the matching loop within one price level
(section 4.5).  Walks the FIFO queue from the head; each step trades
qty = min(incoming remaining, head remaining), decrements both, pops the
head exactly when it is fully filled, and stops when the incoming quantity
is exhausted.  Returns the emitted fills, the incoming residual, and the
surviving queue. -/
def matchOrders (aggSide : Side) (aggId : Int) (qty : Int) :
    List Order → List TradeFill × Int × List Order
  | [] => ([], qty, [])
  | o :: rest =>
    if qty ≤ 0 then ([], qty, o :: rest)
    else
      let t := min qty o.qtyRemaining
      let fill := mkFill aggSide aggId o t
      if o.qtyRemaining ≤ qty then
        let res := matchOrders aggSide aggId (qty - t) rest
        (fill :: res.1, res.2.1, res.2.2)
      else
        ([fill], qty - t, { o with qtyRemaining := o.qtyRemaining - t } :: rest)

/-- Modelled from the spec: the matching loop over the opposite ladder
(section 4.5).  Walks levels from the best price outward while the match
condition `cross` holds at the current best level, consuming each level's
queue via `matchOrders`; a level emptied by matching is deleted from the
ladder. -/
def matchLadder (cross : ℚ → Bool) (aggSide : Side) (aggId : Int) (qty : Int) :
    List Level → List TradeFill × Int × List Level
  | [] => ([], qty, [])
  | lvl :: rest =>
    if qty ≤ 0 then ([], qty, lvl :: rest)
    else if cross lvl.price then
      let res := matchOrders aggSide aggId qty lvl.orders
      if res.2.2.isEmpty then
        let res2 := matchLadder cross aggSide aggId res.2.1 rest
        (res.1 ++ res2.1, res2.2.1, res2.2.2)
      else
        (res.1, res.2.1, { lvl with orders := res.2.2 } :: rest)
    else ([], qty, lvl :: rest)

/-- Look an order up by id inside one ladder (the spec's order index,
section 4.4, realised by search thanks to spec invariant 1). -/
def findInLadder (id : Int) : List Level → Option Order
  | [] => none
  | lvl :: rest =>
    match lvl.orders.find? (fun o => decide (o.id = id)) with
    | some o => some o
    | none => findInLadder id rest

/-- Look an order up by id across both ladders. -/
def Book.findOrder (b : Book) (id : Int) : Option Order :=
  match findInLadder id b.bids with
  | some o => some o
  | none => findInLadder id b.asks

/-- An id is live when the order index resolves it (section 3: re-use of a
live id is rejected; section 4.4). -/
def Book.isLive (b : Book) (id : Int) : Prop :=
  (b.findOrder id).isSome = true

instance (b : Book) (id : Int) : Decidable (b.isLive id) := by
  unfold Book.isLive
  infer_instance

/-- Bid-side ladder order: higher price is better (section 3, Side ladder). -/
def bidBetter (p q : ℚ) : Bool := decide (q < p)

/-- Ask-side ladder order: lower price is better (section 3, Side ladder). -/
def askBetter (p q : ℚ) : Bool := decide (p < q)

/-- Insert a residual order into its own ladder: create the level if
absent, keep the ladder sorted best-first, append at the FIFO tail of an
existing level (section 4.5, residual handling). -/
def insertOrder (better : ℚ → ℚ → Bool) (o : Order) : List Level → List Level
  | [] => [⟨o.price, [o]⟩]
  | lvl :: rest =>
    if better o.price lvl.price then ⟨o.price, [o]⟩ :: lvl :: rest
    else if o.price = lvl.price then { lvl with orders := lvl.orders ++ [o] } :: rest
    else lvl :: insertOrder better o rest

/-- Stamp contiguous log sequence numbers onto the engine's fills
(section 3, Trade: the sequence is contiguous). -/
def numberFills (start : Nat) : List TradeFill → List Trade
  | [] => []
  | f :: fs => ⟨f.buyOrderId, f.sellOrderId, f.price, f.quantity, start⟩ :: numberFills (start + 1) fs

/-- Modelled from the spec: the limit-order match condition at an opposite
price (section 4.5): a BUY matches while the opposite price is at most its
limit, a SELL while the opposite price is at least its limit. -/
def crossCond (s : Side) (limit : ℚ) : ℚ → Bool :=
  match s with
  | .buy => fun p => decide (p ≤ limit)
  | .sell => fun p => decide (limit ≤ p)

/-- Modelled from the spec: `add_limit_order` (section 4.6).  Rejected —
returning false with no state change — when the id is live, the quantity
is non-positive, or the price is non-positive; otherwise the order matches
against the opposite ladder and any residual is inserted into its own
ladder with a fresh arrival sequence. -/
def Book.addLimitOrder (b : Book) (id : Int) (s : Side) (p : ℚ) (q : Int) : Bool × Book :=
  if b.isLive id ∨ q ≤ 0 ∨ p ≤ 0 then (false, b)
  else
    let opp := match s with | .buy => b.asks | .sell => b.bids
    let res := matchLadder (crossCond s p) s id q opp
    let newTrades := b.trades ++ numberFills b.trades.length res.1
    let own := match s with | .buy => b.bids | .sell => b.asks
    let own2 :=
      if 0 < res.2.1 then
        insertOrder (match s with | .buy => bidBetter | .sell => askBetter)
          ⟨id, s, p, res.2.1, b.nextArrival⟩ own
      else own
    match s with
    | .buy =>
        (true, { b with bids := own2, asks := res.2.2, trades := newTrades,
                        nextArrival := b.nextArrival + 1 })
    | .sell =>
        (true, { b with asks := own2, bids := res.2.2, trades := newTrades,
                        nextArrival := b.nextArrival + 1 })

/-- Modelled from the spec: `add_market_order` (sections 4.5 and 4.6).
Rejected when the id is live (section 3: re-use of a live id is rejected
at acceptance) or the quantity is non-positive; otherwise it matches while
the opposite ladder is non-empty and quantity remains, and any residual is
dropped silently while the operation still returns success. -/
def Book.addMarketOrder (b : Book) (id : Int) (s : Side) (q : Int) : Bool × Book :=
  if b.isLive id ∨ q ≤ 0 then (false, b)
  else
    let opp := match s with | .buy => b.asks | .sell => b.bids
    let res := matchLadder (fun _ => true) s id q opp
    let newTrades := b.trades ++ numberFills b.trades.length res.1
    match s with
    | .buy =>
        (true, { b with asks := res.2.2, trades := newTrades,
                        nextArrival := b.nextArrival + 1 })
    | .sell =>
        (true, { b with bids := res.2.2, trades := newTrades,
                        nextArrival := b.nextArrival + 1 })

/-- Unlink the first order with the given id from a ladder, deleting its
level if it becomes empty (sections 4.2 and 4.6, cancel); `none` when no
such order exists. -/
def removeOrderId (id : Int) : List Level → Option (List Level)
  | [] => none
  | lvl :: rest =>
    if lvl.orders.any (fun o => decide (o.id = id)) then
      let os := lvl.orders.eraseP (fun o => decide (o.id = id))
      some (if os.isEmpty then rest else { lvl with orders := os } :: rest)
    else
      (removeOrderId id rest).map (fun r => lvl :: r)

/-- Modelled from the spec: `cancel_order` (section 4.6): true exactly when
the id is live, removing the order; false — with no state change — when the
id is unknown or already gone. -/
def Book.cancelOrder (b : Book) (id : Int) : Bool × Book :=
  match removeOrderId id b.bids with
  | some bids2 => (true, { b with bids := bids2 })
  | none =>
    match removeOrderId id b.asks with
    | some asks2 => (true, { b with asks := asks2 })
    | none => (false, b)

/-- Overwrite the remaining quantity of the first order with the given id,
keeping its queue position (section 4.6, modify-down keeps priority). -/
def setQtyFirst (id : Int) (q : Int) : List Order → List Order
  | [] => []
  | o :: os =>
    if o.id = id then { o with qtyRemaining := q } :: os
    else o :: setQtyFirst id q os

/-- Modify the first order with the given id inside a ladder: in place when
the new quantity does not exceed the current remaining, else unlink and
re-append at the tail of the same price level with a fresh arrival
sequence.  Returns the new ladder and whether the order was re-queued;
`none` when the id is not present. -/
def modifyInLadder (id : Int) (q : Int) (arr : Nat) : List Level → Option (List Level × Bool)
  | [] => none
  | lvl :: rest =>
    match lvl.orders.find? (fun o => decide (o.id = id)) with
    | some o =>
      if q ≤ o.qtyRemaining then
        some ({ lvl with orders := setQtyFirst id q lvl.orders } :: rest, false)
      else
        some ({ lvl with orders :=
          lvl.orders.eraseP (fun o2 => decide (o2.id = id)) ++
            [{ o with qtyRemaining := q, arrivalSeq := arr }] } :: rest, true)
    | none => (modifyInLadder id q arr rest).map (fun r => (lvl :: r.1, r.2))

/-- Modelled from the spec: `modify_order` (section 4.6): false — with no
state change — when the new quantity is non-positive or the id is unknown;
otherwise sets the remaining quantity, preserving time priority when not
increasing and re-queuing at the tail of the same price level (with a new
arrival sequence) when increasing. -/
def Book.modifyOrder (b : Book) (id : Int) (q : Int) : Bool × Book :=
  if q ≤ 0 then (false, b)
  else
    match modifyInLadder id q b.nextArrival b.bids with
    | some r =>
        (true, { b with bids := r.1,
                        nextArrival := if r.2 then b.nextArrival + 1 else b.nextArrival })
    | none =>
      match modifyInLadder id q b.nextArrival b.asks with
      | some r =>
          (true, { b with asks := r.1,
                          nextArrival := if r.2 then b.nextArrival + 1 else b.nextArrival })
      | none => (false, b)

/-- Facade query `get_best_bid`: the highest bid price, none if the bid side is empty
(section 4.6; the ladder is sorted best-first, so it is the head). -/
def Book.bestBid (b : Book) : Option ℚ :=
  b.bids.head?.map Level.price

/-- Facade query `get_best_ask`: the lowest ask price, none if the ask side is empty. -/
def Book.bestAsk (b : Book) : Option ℚ :=
  b.asks.head?.map Level.price

/-- Facade query `get_mid_price`: (best bid + best ask) / 2, none if either side is
empty (section 4.6). -/
def Book.midPrice (b : Book) : Option ℚ :=
  match b.bestBid, b.bestAsk with
  | some bb, some ba => some ((bb + ba) / 2)
  | _, _ => none

/-- Facade query `get_spread`: best ask − best bid, none if either side is empty
(section 4.6). -/
def Book.spread (b : Book) : Option ℚ :=
  match b.bestBid, b.bestAsk with
  | some bb, some ba => some (ba - bb)
  | _, _ => none

/-- Volume resting at one price of a ladder, 0 when the level is absent
(section 4.6, volume-at-price queries). -/
def volumeAtPrice (p : ℚ) : List Level → Int
  | [] => 0
  | lvl :: rest => if lvl.price = p then lvl.volume else volumeAtPrice p rest

/-- Facade query `get_bid_volume_at_price`. -/
def Book.bidVolumeAtPrice (b : Book) (p : ℚ) : Int :=
  volumeAtPrice p b.bids

/-- Facade query `get_ask_volume_at_price`. -/
def Book.askVolumeAtPrice (b : Book) (p : ℚ) : Int :=
  volumeAtPrice p b.asks

/-- Number of live orders resting in one ladder. -/
def ladderOrderCount : List Level → Nat
  | [] => 0
  | lvl :: rest => lvl.orders.length + ladderOrderCount rest

/-- Facade query `get_order_count`: live orders across both sides (section 4.6). -/
def Book.orderCount (b : Book) : Nat :=
  ladderOrderCount b.bids + ladderOrderCount b.asks

/-- Facade query `get_trade_count`: the size of the trade log (section 4.6). -/
def Book.tradeCount (b : Book) : Nat :=
  b.trades.length

/-- Facade query `get_trades`: a snapshot of the full trade log (section 4.6). -/
def Book.getTrades (b : Book) : List Trade :=
  b.trades

/-- Facade query `get_symbol` (section 4.6). -/
def Book.getSymbol (b : Book) : String :=
  b.symbol

/-- Total volume resting in one ladder. -/
def ladderVolume : List Level → Int
  | [] => 0
  | lvl :: rest => lvl.volume + ladderVolume rest

/-- Facade query `get_total_bid_volume` (section 4.6). -/
def Book.totalBidVolume (b : Book) : Int :=
  ladderVolume b.bids

/-- Facade query `get_total_ask_volume` (section 4.6). -/
def Book.totalAskVolume (b : Book) : Int :=
  ladderVolume b.asks

/-- Facade query `get_bids`: up to n (price, volume) pairs from best to worst
(section 4.6). -/
def Book.getBids (b : Book) (n : Nat) : List (ℚ × Int) :=
  (b.bids.take n).map (fun l => (l.price, l.volume))

/-- Facade query `get_asks`: up to n (price, volume) pairs from best to worst. -/
def Book.getAsks (b : Book) (n : Nat) : List (ℚ × Int) :=
  (b.asks.take n).map (fun l => (l.price, l.volume))

/-- The ids of all orders resting in one ladder, in ladder-then-FIFO
order (the domain of the spec's order index, section 4.4). -/
def ladderIds : List Level → List Int
  | [] => []
  | lvl :: rest => lvl.orders.map Order.id ++ ladderIds rest

/-- All live ids of the book (spec invariant 1 makes these the order
index's keys). -/
def Book.liveIds (b : Book) : List Int :=
  ladderIds b.bids ++ ladderIds b.asks

/-- Live ids are pairwise distinct — the uniqueness invariant the facade
maintains by rejecting re-use of a live id (section 3, Order). -/
def Book.noDupIds (b : Book) : Prop :=
  b.liveIds.Nodup

instance (b : Book) : Decidable b.noDupIds := by
  unfold Book.noDupIds
  infer_instance

/-- One submitted operation of the facade's mutating interface
(section 4.6), for reasoning about operation sequences. -/
inductive Op where
  | addLimit (id : Int) (s : Side) (p : ℚ) (q : Int)
  | addMarket (id : Int) (s : Side) (q : Int)
  | cancel (id : Int)
  | modify (id : Int) (q : Int)

/-- Apply one operation to the book, keeping the resulting state. -/
def Book.applyOp (b : Book) : Op → Book
  | .addLimit id s p q => (b.addLimitOrder id s p q).2
  | .addMarket id s q => (b.addMarketOrder id s q).2
  | .cancel id => (b.cancelOrder id).2
  | .modify id q => (b.modifyOrder id q).2

/-- Run a sequence of operations left to right (section 5: submission
order is the canonical order). -/
def runOps (b : Book) (ops : List Op) : Book :=
  ops.foldl Book.applyOp b

/-! Aggregate helpers for the conservation statements -/

/-- Total executed quantity of a list of fills. -/
def fillsQty : List TradeFill → Int
  | [] => 0
  | f :: fs => f.quantity + fillsQty fs

/-- Total remaining quantity of a queue of orders. -/
def ordersVolume : List Order → Int
  | [] => 0
  | o :: os => o.qtyRemaining + ordersVolume os

/-! Concrete scenario books (spec section 8, concrete scenarios) -/

/-- Scenario: BUY#1@100/50 then SELL#2@100/50 into an empty book. -/
def bookFullMatch : Book :=
  (((emptyBook "TEST").addLimitOrder 1 .buy 100 50).2.addLimitOrder 2 .sell 100 50).2

/-- Scenario: resting SELL#1@100/10, then aggressive BUY#2@101/10. -/
def bookPriceImprove : Book :=
  (((emptyBook "TEST").addLimitOrder 1 .sell 100 10).2.addLimitOrder 2 .buy 101 10).2

/-- Scenario: SELL#1@100/50 and SELL#2@101/30 resting. -/
def bookTwoAsks : Book :=
  (((emptyBook "TEST").addLimitOrder 1 .sell 100 50).2.addLimitOrder 2 .sell 101 30).2

/-- Scenario: the two resting asks swept by MARKET BUY#3 qty 60. -/
def bookMarketSweep : Book :=
  (bookTwoAsks.addMarketOrder 3 .buy 60).2

/-- Scenario: BUY#1@100/50 then SELL#2@100/30 into an empty book. -/
def bookPartialMatch : Book :=
  (((emptyBook "TEST").addLimitOrder 1 .buy 100 50).2.addLimitOrder 2 .sell 100 30).2

/-- Scenario: BUY#1@100/10, BUY#2@101/20, BUY#3@99/30. -/
def bookThreeBids : Book :=
  ((((emptyBook "TEST").addLimitOrder 1 .buy 100 10).2.addLimitOrder 2 .buy 101 20).2.addLimitOrder
    3 .buy 99 30).2

/-- Scenario: the three bids plus SELL#4@105/10 and SELL#5@103/20. -/
def bookThreeBidsTwoAsks : Book :=
  ((bookThreeBids.addLimitOrder 4 .sell 105 10).2.addLimitOrder 5 .sell 103 20).2

/-- Scenario: SELL#1@100/10 then SELL#2@100/20 (same price, later arrival),
then aggressive BUY#3@100/10. -/
def bookFifo : Book :=
  ((((emptyBook "TEST").addLimitOrder 1 .sell 100 10).2.addLimitOrder 2 .sell 100 20).2.addLimitOrder
    3 .buy 100 10).2

/-- Scenario: a lone BUY#1@100/50. -/
def bookLoneBid : Book :=
  ((emptyBook "TEST").addLimitOrder 1 .buy 100 50).2

/-- Scenario: BUY#1@100/50 then BUY#2@100/40 queued at the same price. -/
def bookTwoAtPrice : Book :=
  (bookLoneBid.addLimitOrder 2 .buy 100 40).2

/-- Scenario: BUY#1@100/50 resting against SELL#2@101/30. -/
def bookSpreadOne : Book :=
  ((bookLoneBid.addLimitOrder 2 .sell 101 30).2)

/-- Claim C1: full match — after BUY#1@100/50 then SELL#2@100/50 from empty,
exactly one trade is recorded, at price 100 for quantity 50 between buy
order 1 and sell order 2, and no live order remains; the trade's price is
the resting order's price, as the aggressive BUY#2@101 against resting
SELL#1@100 trading at 100 (not 101) also shows. -/
theorem claim_C1_full_match :
    bookFullMatch.tradeCount = 1 ∧
    bookFullMatch.getTrades = [⟨1, 2, 100, 50, 0⟩] ∧
    bookFullMatch.orderCount = 0 ∧
    bookPriceImprove.getTrades = [⟨2, 1, 100, 10, 0⟩] := by
  decide

/-- Claim C2: market sweep — SELL#1@100/50, SELL#2@101/30, then MARKET
BUY#3 qty 60 yields exactly the two trades 50@100 and 10@101, best ask
101 with 20 resting there, and the market order still reports success
although 10 of its 60 were dropped silently. -/
theorem claim_C2_market_sweep :
    bookMarketSweep.tradeCount = 2 ∧
    bookMarketSweep.getTrades = [⟨3, 1, 100, 50, 0⟩, ⟨3, 2, 101, 10, 1⟩] ∧
    bookMarketSweep.bestAsk = some 101 ∧
    bookMarketSweep.askVolumeAtPrice 101 = 20 ∧
    (bookTwoAsks.addMarketOrder 3 .buy 60).1 = true := by
  decide

/-- Claim C4: price-time priority — the three non-crossing bids leave best
bid 101, three live orders and no trades; the two asks leave best ask 103;
and at one price the earlier arrival fills first: BUY#3@100/10 trades
against SELL#1 (the first arrival), leaving SELL#2 resting untouched. -/
theorem claim_C4_price_time_priority :
    bookThreeBids.bestBid = some 101 ∧
    bookThreeBids.orderCount = 3 ∧
    bookThreeBids.tradeCount = 0 ∧
    bookThreeBidsTwoAsks.bestAsk = some 103 ∧
    bookFifo.getTrades = [⟨3, 1, 100, 10, 0⟩] ∧
    bookFifo.findOrder 1 = none ∧
    (bookFifo.findOrder 2).map Order.qtyRemaining = some 20 ∧
    bookFifo.orderCount = 1 := by
  decide

/-! Rejection no-op lemmas (section 7: rejected operations do nothing) -/

theorem addLimitOrder_rejected (b : Book) (id : Int) (s : Side) (p : ℚ) (q : Int)
    (h : b.isLive id ∨ q ≤ 0 ∨ p ≤ 0) :
    b.addLimitOrder id s p q = (false, b) := by
  unfold Book.addLimitOrder
  rw [if_pos h]

theorem addMarketOrder_rejected (b : Book) (id : Int) (s : Side) (q : Int)
    (h : b.isLive id ∨ q ≤ 0) :
    b.addMarketOrder id s q = (false, b) := by
  unfold Book.addMarketOrder
  rw [if_pos h]

theorem findOrder_eq_none_iff (b : Book) (id : Int) :
    b.findOrder id = none ↔ findInLadder id b.bids = none ∧ findInLadder id b.asks = none := by
  unfold Book.findOrder
  cases h : findInLadder id b.bids with
  | some o => simp
  | none => simp

theorem modifyInLadder_isSome (id : Int) (q : Int) (arr : Nat) (ls : List Level) :
    (modifyInLadder id q arr ls).isSome = (findInLadder id ls).isSome := by
  induction ls with
  | nil => rfl
  | cons lvl rest ih =>
    cases h : lvl.orders.find? (fun o => decide (o.id = id)) with
    | some o =>
      simp only [modifyInLadder, findInLadder, h]
      split <;> rfl
    | none =>
      simp only [modifyInLadder, findInLadder, h]
      rw [← ih]
      cases modifyInLadder id q arr rest <;> rfl

theorem modifyInLadder_eq_none (id : Int) (q : Int) (arr : Nat) (ls : List Level)
    (h : findInLadder id ls = none) : modifyInLadder id q arr ls = none := by
  have hs := modifyInLadder_isSome id q arr ls
  rw [h] at hs
  cases hm : modifyInLadder id q arr ls with
  | none => rfl
  | some r => rw [hm] at hs; simp at hs

theorem modifyOrder_nonpos (b : Book) (id : Int) (q : Int) (h : q ≤ 0) :
    b.modifyOrder id q = (false, b) := by
  unfold Book.modifyOrder
  rw [if_pos h]

theorem modifyOrder_unknown (b : Book) (id : Int) (q : Int) (h : b.findOrder id = none) :
    b.modifyOrder id q = (false, b) := by
  by_cases hq : q ≤ 0
  · exact modifyOrder_nonpos b id q hq
  · rcases (findOrder_eq_none_iff b id).1 h with ⟨hb, ha⟩
    unfold Book.modifyOrder
    rw [if_neg hq, modifyInLadder_eq_none id q b.nextArrival b.bids hb,
      modifyInLadder_eq_none id q b.nextArrival b.asks ha]

theorem modifyOrder_live (b : Book) (id : Int) (q : Int) (o : Order)
    (ho : b.findOrder id = some o) (hq : 0 < q) :
    (b.modifyOrder id q).1 = true := by
  unfold Book.modifyOrder
  rw [if_neg (by omega : ¬ q ≤ 0)]
  unfold Book.findOrder at ho
  cases hb : findInLadder id b.bids with
  | some ob =>
    have hs : (modifyInLadder id q b.nextArrival b.bids).isSome = true := by
      rw [modifyInLadder_isSome, hb]; rfl
    cases hm : modifyInLadder id q b.nextArrival b.bids with
    | none => rw [hm] at hs; simp at hs
    | some r => rfl
  | none =>
    rw [hb] at ho
    have ho2 : findInLadder id b.asks = some o := ho
    have hs : (modifyInLadder id q b.nextArrival b.asks).isSome = true := by
      rw [modifyInLadder_isSome, ho2]; rfl
    rw [modifyInLadder_eq_none id q b.nextArrival b.bids hb]
    cases hm : modifyInLadder id q b.nextArrival b.asks with
    | none => rw [hm] at hs; simp at hs
    | some r => rfl

/-! Order-index lemmas: membership, removal, uniqueness -/

theorem findInLadder_isSome_iff (id : Int) (ls : List Level) :
    (findInLadder id ls).isSome = true ↔ id ∈ ladderIds ls := by
  induction ls with
  | nil => simp [findInLadder, ladderIds]
  | cons lvl rest ih =>
    cases h : lvl.orders.find? (fun o => decide (o.id = id)) with
    | some o =>
      have h1 : o.id = id := by simpa using List.find?_some h
      have h2 : o ∈ lvl.orders := List.mem_of_find?_eq_some h
      simp only [findInLadder, ladderIds, h, Option.isSome_some, true_iff, List.mem_append]
      exact Or.inl (List.mem_map.2 ⟨o, h2, h1⟩)
    | none =>
      have hnot : id ∉ lvl.orders.map Order.id := by
        intro hmem
        rcases List.mem_map.1 hmem with ⟨o, ho, hid⟩
        have := List.find?_eq_none.1 h o ho
        simp [hid] at this
      simp only [findInLadder, ladderIds, h, List.mem_append]
      rw [ih]
      constructor
      · exact Or.inr
      · rintro (hc | hc)
        · exact absurd hc hnot
        · exact hc

theorem removeOrderId_isSome_iff (id : Int) (ls : List Level) :
    (removeOrderId id ls).isSome = true ↔ id ∈ ladderIds ls := by
  induction ls with
  | nil => simp [removeOrderId, ladderIds]
  | cons lvl rest ih =>
    by_cases h : lvl.orders.any (fun o => decide (o.id = id)) = true
    · have hmem : id ∈ lvl.orders.map Order.id := by
        rcases List.any_eq_true.1 h with ⟨o, ho, hid⟩
        exact List.mem_map.2 ⟨o, ho, by simpa using hid⟩
      simp only [removeOrderId, ladderIds, if_pos h, Option.isSome_some, true_iff,
        List.mem_append]
      exact Or.inl hmem
    · have hnot : id ∉ lvl.orders.map Order.id := by
        intro hmem
        rcases List.mem_map.1 hmem with ⟨o, ho, hid⟩
        exact h (List.any_eq_true.2 ⟨o, ho, by simpa using hid⟩)
      simp only [removeOrderId, ladderIds, if_neg h, List.mem_append]
      rw [← ih]
      cases removeOrderId id rest <;> simp [hnot]

theorem isLive_iff_mem (b : Book) (id : Int) :
    b.isLive id ↔ id ∈ b.liveIds := by
  unfold Book.isLive Book.findOrder Book.liveIds
  cases h : findInLadder id b.bids with
  | some o =>
    have hm : id ∈ ladderIds b.bids := (findInLadder_isSome_iff id b.bids).1 (by rw [h]; rfl)
    simp [List.mem_append, hm]
  | none =>
    have hm : id ∉ ladderIds b.bids := by
      rw [← findInLadder_isSome_iff, h]; simp
    simp [List.mem_append, hm, findInLadder_isSome_iff]

theorem cancelOrder_fst_iff (b : Book) (id : Int) :
    (b.cancelOrder id).1 = true ↔ b.isLive id := by
  rw [isLive_iff_mem]
  unfold Book.cancelOrder Book.liveIds
  cases hb : removeOrderId id b.bids with
  | some bids2 =>
    have hm : id ∈ ladderIds b.bids := (removeOrderId_isSome_iff id b.bids).1 (by rw [hb]; rfl)
    simp [List.mem_append, hm]
  | none =>
    have hmb : id ∉ ladderIds b.bids := by rw [← removeOrderId_isSome_iff, hb]; simp
    cases ha : removeOrderId id b.asks with
    | some asks2 =>
      have hm : id ∈ ladderIds b.asks := (removeOrderId_isSome_iff id b.asks).1 (by rw [ha]; rfl)
      simp [List.mem_append, hm]
    | none =>
      have hma : id ∉ ladderIds b.asks := by rw [← removeOrderId_isSome_iff, ha]; simp
      simp [List.mem_append, hmb, hma]

theorem cancelOrder_not_live (b : Book) (id : Int) (h : ¬ b.isLive id) :
    b.cancelOrder id = (false, b) := by
  have hmem : id ∉ b.liveIds := fun hm => h ((isLive_iff_mem b id).2 hm)
  have hmb : id ∉ ladderIds b.bids := fun hm =>
    hmem (show id ∈ ladderIds b.bids ++ ladderIds b.asks from List.mem_append.2 (Or.inl hm))
  have hma : id ∉ ladderIds b.asks := fun hm =>
    hmem (show id ∈ ladderIds b.bids ++ ladderIds b.asks from List.mem_append.2 (Or.inr hm))
  have hb : removeOrderId id b.bids = none := by
    cases hr : removeOrderId id b.bids with
    | none => rfl
    | some r => exact absurd ((removeOrderId_isSome_iff id b.bids).1 (by rw [hr]; rfl)) hmb
  have ha : removeOrderId id b.asks = none := by
    cases hr : removeOrderId id b.asks with
    | none => rfl
    | some r => exact absurd ((removeOrderId_isSome_iff id b.asks).1 (by rw [hr]; rfl)) hma
  unfold Book.cancelOrder
  rw [hb, ha]

theorem erasePIds (id : Int) (os : List Order) :
    (os.eraseP (fun o => decide (o.id = id))).map Order.id = (os.map Order.id).erase id := by
  induction os with
  | nil => rfl
  | cons o os ih =>
    by_cases h : o.id = id
    · simp [List.eraseP_cons, List.erase_cons, h]
    · simp [List.eraseP_cons, List.erase_cons, h, ih]

theorem removeOrderId_ids (id : Int) (ls ls2 : List Level)
    (h : removeOrderId id ls = some ls2) :
    ladderIds ls2 = (ladderIds ls).erase id := by
  induction ls generalizing ls2 with
  | nil => simp [removeOrderId] at h
  | cons lvl rest ih =>
    by_cases ha : lvl.orders.any (fun o => decide (o.id = id)) = true
    · have hmem : id ∈ lvl.orders.map Order.id := by
        rcases List.any_eq_true.1 ha with ⟨o, ho, hid⟩
        exact List.mem_map.2 ⟨o, ho, by simpa using hid⟩
      simp only [removeOrderId, if_pos ha, Option.some.injEq] at h
      rw [ladderIds, List.erase_append_left _ hmem, ← erasePIds]
      by_cases he : (lvl.orders.eraseP (fun o => decide (o.id = id))).isEmpty = true
      · rw [if_pos he] at h
        rw [← h, List.isEmpty_iff.1 he]
        rfl
      · rw [if_neg he] at h
        rw [← h]
        rfl
    · have hnot : id ∉ lvl.orders.map Order.id := by
        intro hmem
        rcases List.mem_map.1 hmem with ⟨o, ho, hid⟩
        exact ha (List.any_eq_true.2 ⟨o, ho, by simpa using hid⟩)
      simp only [removeOrderId, if_neg ha] at h
      cases hr : removeOrderId id rest with
      | none => rw [hr] at h; simp at h
      | some r =>
        rw [hr] at h
        simp only [Option.map_some', Option.some.injEq] at h
        rw [ladderIds, List.erase_append_right _ hnot, ← h, ← ih r hr]
        rfl

theorem cancelOrder_true_not_live (b b2 : Book) (id : Int)
    (hnd : b.noDupIds) (h : b.cancelOrder id = (true, b2)) : ¬ b2.isLive id := by
  unfold Book.noDupIds Book.liveIds at hnd
  rcases List.nodup_append.1 hnd with ⟨hnb, hna, hdisj⟩
  unfold Book.cancelOrder at h
  cases hb : removeOrderId id b.bids with
  | some bids2 =>
    rw [hb] at h
    simp only [Prod.mk.injEq, true_and] at h
    have hmem : id ∈ ladderIds b.bids :=
      (removeOrderId_isSome_iff id b.bids).1 (by rw [hb]; rfl)
    intro hlive
    rw [isLive_iff_mem, ← h] at hlive
    rcases List.mem_append.1 hlive with hc | hc
    · have := removeOrderId_ids id b.bids bids2 hb
      rw [show ladderIds ({ b with bids := bids2 } : Book).bids = ladderIds bids2 from rfl,
        this] at hc
      exact absurd ((hnb.mem_erase_iff.1 hc).1) (by simp)
    · exact hdisj hmem hc
  | none =>
    rw [hb] at h
    cases hc : removeOrderId id b.asks with
    | none => rw [hc] at h; simp at h
    | some asks2 =>
      rw [hc] at h
      simp only [Prod.mk.injEq, true_and] at h
      have hmem : id ∈ ladderIds b.asks :=
        (removeOrderId_isSome_iff id b.asks).1 (by rw [hc]; rfl)
      have hmbids : id ∉ ladderIds b.bids := by
        rw [← removeOrderId_isSome_iff, hb]; simp
      intro hlive
      rw [isLive_iff_mem, ← h] at hlive
      rcases List.mem_append.1 hlive with hd | hd
      · exact hmbids hd
      · have := removeOrderId_ids id b.asks asks2 hc
        rw [show ladderIds ({ b with asks := asks2 } : Book).asks = ladderIds asks2 from rfl,
          this] at hd
        exact absurd ((hna.mem_erase_iff.1 hd).1) (by simp)

/-- Claim C6: cancel idempotence and unknown-id rejection — cancelling
returns true exactly when the id is live; cancelling a non-live id (never
added or already gone) returns false with no state change; and when the
book's live ids are unique (the invariant the facade maintains by rejecting
re-use of a live id), a successful cancel removes the order, so cancelling
the same id again returns false with no state change. -/
theorem claim_C6_cancel_idempotent :
    (∀ (b : Book) (id : Int), (b.cancelOrder id).1 = true ↔ b.isLive id) ∧
    (∀ (b : Book) (id : Int), ¬ b.isLive id → b.cancelOrder id = (false, b)) ∧
    (∀ (b b2 : Book) (id : Int), b.noDupIds → b.cancelOrder id = (true, b2) →
      b2.cancelOrder id = (false, b2)) := by
  refine ⟨cancelOrder_fst_iff, cancelOrder_not_live, ?_⟩
  intro b b2 id hnd h
  exact cancelOrder_not_live b2 id (cancelOrder_true_not_live b b2 id hnd h)

/-- Witness for C6: cancelling the lone live order 1 succeeds once,
cancelling it again returns false and changes nothing, and cancelling the
never-added id 99 on an empty book returns false and changes nothing. -/
theorem claim_C6_cancel_idempotent_witness :
    ((bookLoneBid.cancelOrder 1).1 = true) ∧
    (bookLoneBid.cancelOrder 1).2.cancelOrder 1 = (false, (bookLoneBid.cancelOrder 1).2) ∧
    (emptyBook "TEST").cancelOrder 99 = (false, emptyBook "TEST") :=
  ⟨(claim_C6_cancel_idempotent.1 bookLoneBid 1).2 (by decide),
   claim_C6_cancel_idempotent.2.2 bookLoneBid (bookLoneBid.cancelOrder 1).2 1
     (by decide) (by decide),
   claim_C6_cancel_idempotent.2.1 (emptyBook "TEST") 99 (by decide)⟩

/-- Claim C7: error atomicity of the facade — every rejected operation
(duplicate live id or non-positive quantity or non-positive price on a
limit add; duplicate live id or non-positive quantity on a market add;
unknown id or non-positive quantity on modify; unknown id on cancel)
returns false together with the book completely unchanged: ladders, order
index, trade log and counters included.  Totality holds by construction:
every facade operation is a total function on books. -/
theorem claim_C7_rejection_no_op :
    (∀ (b : Book) (id : Int) (s : Side) (p : ℚ) (q : Int),
      b.isLive id ∨ q ≤ 0 ∨ p ≤ 0 → b.addLimitOrder id s p q = (false, b)) ∧
    (∀ (b : Book) (id : Int) (s : Side) (q : Int),
      b.isLive id ∨ q ≤ 0 → b.addMarketOrder id s q = (false, b)) ∧
    (∀ (b : Book) (id : Int) (q : Int),
      ¬ b.isLive id ∨ q ≤ 0 → b.modifyOrder id q = (false, b)) ∧
    (∀ (b : Book) (id : Int), ¬ b.isLive id → b.cancelOrder id = (false, b)) := by
  refine ⟨addLimitOrder_rejected, addMarketOrder_rejected, ?_, cancelOrder_not_live⟩
  intro b id q h
  rcases h with h | h
  · have hnone : b.findOrder id = none := by
      unfold Book.isLive at h
      cases hf : b.findOrder id with
      | none => rfl
      | some o => rw [hf] at h; simp at h
    exact modifyOrder_unknown b id q hnone
  · exact modifyOrder_nonpos b id q h

/-- Witness for C7: each rejection case exercised on a concrete book. -/
theorem claim_C7_rejection_no_op_witness :
    (emptyBook "TEST").addLimitOrder 7 Side.buy 100 0 = (false, emptyBook "TEST") ∧
    (emptyBook "TEST").addMarketOrder 7 Side.buy 0 = (false, emptyBook "TEST") ∧
    (emptyBook "TEST").modifyOrder 7 5 = (false, emptyBook "TEST") ∧
    (emptyBook "TEST").cancelOrder 7 = (false, emptyBook "TEST") :=
  ⟨claim_C7_rejection_no_op.1 (emptyBook "TEST") 7 Side.buy 100 0 (Or.inr (Or.inl (by decide))),
   claim_C7_rejection_no_op.2.1 (emptyBook "TEST") 7 Side.buy 0 (Or.inr (by decide)),
   claim_C7_rejection_no_op.2.2.1 (emptyBook "TEST") 7 5 (Or.inl (by decide)),
   claim_C7_rejection_no_op.2.2.2 (emptyBook "TEST") 7 (by decide)⟩

/-- Claim C9: determinism — the book model is a pure function of the
submitted operation sequence, so two books started in the same initial
state and driven by the same operations have identical trade logs, record
for record. -/
theorem claim_C9_determinism (ops : List Op) (b1 b2 : Book) (h : b1 = b2) :
    (runOps b1 ops).getTrades = (runOps b2 ops).getTrades := by
  subst h
  rfl

/-- Witness for C9: the full-match operation sequence from the empty book. -/
theorem claim_C9_determinism_witness :
    (runOps (emptyBook "TEST")
        [Op.addLimit 1 Side.buy 100 50, Op.addLimit 2 Side.sell 100 50]).getTrades =
      (runOps (emptyBook "TEST")
        [Op.addLimit 1 Side.buy 100 50, Op.addLimit 2 Side.sell 100 50]).getTrades :=
  claim_C9_determinism [Op.addLimit 1 Side.buy 100 50, Op.addLimit 2 Side.sell 100 50]
    (emptyBook "TEST") (emptyBook "TEST") rfl

/-- Claim C8: mid-price and spread — with both sides non-empty,
`get_mid_price` is (best bid + best ask)/2 and `get_spread` is
best ask − best bid; with either side empty both are none, and the best
price of an empty side is none.  Concretely, a bid at 100 against an ask
at 101 gives mid 100.5 (= 201/2) and spread 1. -/
theorem claim_C8_mid_spread :
    (∀ (b : Book) (bb ba : ℚ), b.bestBid = some bb → b.bestAsk = some ba →
      b.midPrice = some ((bb + ba) / 2) ∧ b.spread = some (ba - bb)) ∧
    (∀ b : Book, b.bestBid = none → b.midPrice = none ∧ b.spread = none) ∧
    (∀ b : Book, b.bestAsk = none → b.midPrice = none ∧ b.spread = none) ∧
    (∀ b : Book, b.bids = [] → b.bestBid = none) ∧
    (∀ b : Book, b.asks = [] → b.bestAsk = none) ∧
    bookSpreadOne.midPrice = some (201 / 2) ∧
    bookSpreadOne.spread = some 1 := by
  refine ⟨?_, ?_, ?_, ?_, ?_, ?_, ?_⟩
  · intro b bb ba hb ha
    constructor <;> simp [Book.midPrice, Book.spread, hb, ha]
  · intro b hb
    constructor <;> cases ha : b.bestAsk <;> simp [Book.midPrice, Book.spread, hb, ha]
  · intro b ha
    constructor <;> cases hb : b.bestBid <;> simp [Book.midPrice, Book.spread, hb, ha]
  · intro b hb
    simp [Book.bestBid, hb]
  · intro b ha
    simp [Book.bestAsk, ha]
  · have h : bookSpreadOne.midPrice = some ((100 + 101) / 2) := rfl
    rw [h]
    norm_num
  · have h : bookSpreadOne.spread = some (101 - 100) := rfl
    rw [h]
    norm_num

/-- Witness for C8: the general clause applied to the concrete book with a
bid at 100 and an ask at 101. -/
theorem claim_C8_mid_spread_witness :
    bookSpreadOne.midPrice = some ((100 + 101) / 2) ∧
    bookSpreadOne.spread = some (101 - 100) :=
  claim_C8_mid_spread.1 bookSpreadOne 100 101 (by decide) (by decide)

/-- The matching loop does nothing when the best opposite level does not
cross (section 4.5: the walk stops as soon as the match condition fails). -/
theorem matchLadder_no_cross (cross : ℚ → Bool) (s : Side) (a : Int) (q : Int)
    (lvl : Level) (rest : List Level) (h : cross lvl.price = false) :
    matchLadder cross s a q (lvl :: rest) = ([], q, lvl :: rest) := by
  unfold matchLadder
  rw [h]
  by_cases hq : q ≤ 0 <;> simp [hq]

/-- The accepted BUY limit path written out: matching runs against the ask
ladder and any residual is inserted into the bid ladder. -/
theorem addLimitOrder_buy_accept (b : Book) (id : Int) (p : ℚ) (q : Int)
    (hrej : ¬ (b.isLive id ∨ q ≤ 0 ∨ p ≤ 0)) :
    b.addLimitOrder id .buy p q =
      (true, { b with
        bids :=
          if 0 < (matchLadder (crossCond .buy p) .buy id q b.asks).2.1 then
            insertOrder bidBetter
              ⟨id, .buy, p, (matchLadder (crossCond .buy p) .buy id q b.asks).2.1,
                b.nextArrival⟩ b.bids
          else b.bids,
        asks := (matchLadder (crossCond .buy p) .buy id q b.asks).2.2,
        trades := b.trades ++
          numberFills b.trades.length (matchLadder (crossCond .buy p) .buy id q b.asks).1,
        nextArrival := b.nextArrival + 1 }) := by
  unfold Book.addLimitOrder
  rw [if_neg hrej]

/-- The accepted SELL limit path written out: matching runs against the bid
ladder and any residual is inserted into the ask ladder. -/
theorem addLimitOrder_sell_accept (b : Book) (id : Int) (p : ℚ) (q : Int)
    (hrej : ¬ (b.isLive id ∨ q ≤ 0 ∨ p ≤ 0)) :
    b.addLimitOrder id .sell p q =
      (true, { b with
        asks :=
          if 0 < (matchLadder (crossCond .sell p) .sell id q b.bids).2.1 then
            insertOrder askBetter
              ⟨id, .sell, p, (matchLadder (crossCond .sell p) .sell id q b.bids).2.1,
                b.nextArrival⟩ b.asks
          else b.asks,
        bids := (matchLadder (crossCond .sell p) .sell id q b.bids).2.2,
        trades := b.trades ++
          numberFills b.trades.length (matchLadder (crossCond .sell p) .sell id q b.bids).1,
        nextArrival := b.nextArrival + 1 }) := by
  unfold Book.addLimitOrder
  rw [if_neg hrej]

/-- Claim C10: frame property of non-crossing adds — a limit order whose
price does not reach the best opposite price (including any add into an
empty opposite side) leaves the opposite ladder — hence its best price,
its per-price volumes and its resting orders — unchanged and emits no
trades; rejected adds change nothing either, so the conclusion needs no
acceptance hypothesis.  Concretely, after a single BUY#1@100/50 into an
empty book the best ask is still none and the trade count still 0. -/
theorem claim_C10_non_crossing_frame :
    (∀ (b : Book) (id : Int) (p : ℚ) (q : Int),
      (∀ a : ℚ, b.bestAsk = some a → p < a) →
      (b.addLimitOrder id .buy p q).2.asks = b.asks ∧
      (b.addLimitOrder id .buy p q).2.trades = b.trades) ∧
    (∀ (b : Book) (id : Int) (p : ℚ) (q : Int),
      (∀ a : ℚ, b.bestBid = some a → a < p) →
      (b.addLimitOrder id .sell p q).2.bids = b.bids ∧
      (b.addLimitOrder id .sell p q).2.trades = b.trades) ∧
    bookLoneBid.bestAsk = none ∧
    bookLoneBid.tradeCount = 0 := by
  refine ⟨?_, ?_, by decide, by decide⟩
  · intro b id p q hna
    by_cases hrej : b.isLive id ∨ q ≤ 0 ∨ p ≤ 0
    · rw [addLimitOrder_rejected b id .buy p q hrej]
      exact ⟨rfl, rfl⟩
    · have hm : matchLadder (crossCond Side.buy p) Side.buy id q b.asks = ([], q, b.asks) := by
        cases hasks : b.asks with
        | nil => rfl
        | cons lvl rest =>
          have hlt : p < lvl.price := by
            refine hna lvl.price ?_
            unfold Book.bestAsk
            rw [hasks]
            rfl
          have hcross : crossCond Side.buy p lvl.price = false := by
            have hn : ¬ (lvl.price ≤ p) := not_le.2 hlt
            simp [crossCond, hn]
          exact matchLadder_no_cross _ _ _ _ _ _ hcross
      rw [addLimitOrder_buy_accept b id p q hrej]
      constructor
      · simp [hm]
      · simp [hm, numberFills]
  · intro b id p q hnb
    by_cases hrej : b.isLive id ∨ q ≤ 0 ∨ p ≤ 0
    · rw [addLimitOrder_rejected b id .sell p q hrej]
      exact ⟨rfl, rfl⟩
    · have hm : matchLadder (crossCond Side.sell p) Side.sell id q b.bids = ([], q, b.bids) := by
        cases hbids : b.bids with
        | nil => rfl
        | cons lvl rest =>
          have hlt : lvl.price < p := by
            refine hnb lvl.price ?_
            unfold Book.bestBid
            rw [hbids]
            rfl
          have hcross : crossCond Side.sell p lvl.price = false := by
            have hn : ¬ (p ≤ lvl.price) := not_le.2 hlt
            simp [crossCond, hn]
          exact matchLadder_no_cross _ _ _ _ _ _ hcross
      rw [addLimitOrder_sell_accept b id p q hrej]
      constructor
      · simp [hm]
      · simp [hm, numberFills]

/-- Witness for C10: adding BUY#1@100/50 into the empty book (empty ask
side, so the non-crossing hypothesis is vacuous) leaves the ask ladder and
the trade log unchanged. -/
theorem claim_C10_non_crossing_frame_witness :
    bookLoneBid.asks = (emptyBook "TEST").asks ∧
    bookLoneBid.trades = (emptyBook "TEST").trades :=
  claim_C10_non_crossing_frame.1 (emptyBook "TEST") 1 100 50
    (fun a h => by simp [Book.bestAsk, emptyBook] at h)

/-! Conservation of quantity through the matching loop -/

theorem mkFill_quantity (s : Side) (a : Int) (o : Order) (t : Int) :
    (mkFill s a o t).quantity = t := by
  cases s <;> rfl

theorem mkFill_price (s : Side) (a : Int) (o : Order) (t : Int) :
    (mkFill s a o t).price = o.price := by
  cases s <;> rfl

theorem fillsQty_append (xs ys : List TradeFill) :
    fillsQty (xs ++ ys) = fillsQty xs + fillsQty ys := by
  induction xs with
  | nil => simp [fillsQty]
  | cons x xs ih => simp [fillsQty, ih]; omega

theorem Level.volume_eq (l : Level) : l.volume = ordersVolume l.orders := by
  unfold Level.volume
  induction l.orders with
  | nil => rfl
  | cons o os ih => simp [ordersVolume, ih]

/-- Conservation within one level: the incoming order's quantity drop and
the queue's total-volume drop both equal the total traded quantity — every
trade of quantity t decrements the aggressor and the resting counterparty
by exactly t (section 4.5, trade emission). -/
theorem matchOrders_conservation (s : Side) (a : Int) (q : Int) (os : List Order) :
    q - (matchOrders s a q os).2.1 = fillsQty (matchOrders s a q os).1 ∧
    ordersVolume os - ordersVolume (matchOrders s a q os).2.2 =
      fillsQty (matchOrders s a q os).1 := by
  induction os generalizing q with
  | nil => simp [matchOrders, fillsQty, ordersVolume]
  | cons o rest ih =>
    by_cases hq : q ≤ 0
    · simp [matchOrders, hq, fillsQty]
    · by_cases hr : o.qtyRemaining ≤ q
      · have hmin : min q o.qtyRemaining = o.qtyRemaining := min_eq_right hr
        obtain ⟨ih1, ih2⟩ := ih (q - o.qtyRemaining)
        simp only [matchOrders, if_neg hq, if_pos hr, hmin]
        constructor
        · simp only [fillsQty, mkFill_quantity]
          omega
        · simp only [fillsQty, mkFill_quantity, ordersVolume]
          omega
      · have hmin : min q o.qtyRemaining = q := min_eq_left (le_of_lt (not_le.1 hr))
        simp only [matchOrders, if_neg hq, if_neg hr, hmin]
        constructor
        · simp only [fillsQty, mkFill_quantity]
          omega
        · simp only [fillsQty, mkFill_quantity, ordersVolume]
          omega

/-- Conservation across the ladder walk: the aggressor's quantity drop and
the opposite ladder's total-volume drop both equal the total traded
quantity. -/
theorem matchLadder_conservation (cross : ℚ → Bool) (s : Side) (a : Int) (q : Int)
    (ls : List Level) :
    q - (matchLadder cross s a q ls).2.1 = fillsQty (matchLadder cross s a q ls).1 ∧
    ladderVolume ls - ladderVolume (matchLadder cross s a q ls).2.2 =
      fillsQty (matchLadder cross s a q ls).1 := by
  induction ls generalizing q with
  | nil => simp [matchLadder, fillsQty, ladderVolume]
  | cons lvl rest ih =>
    by_cases hq : q ≤ 0
    · simp [matchLadder, hq, fillsQty]
    · by_cases hc : cross lvl.price = true
      · obtain ⟨mo1, mo2⟩ := matchOrders_conservation s a q lvl.orders
        by_cases he : (matchOrders s a q lvl.orders).2.2.isEmpty = true
        · obtain ⟨ih1, ih2⟩ := ih (matchOrders s a q lvl.orders).2.1
          rw [List.isEmpty_iff.1 he] at mo2
          simp only [matchLadder, if_neg hq, hc, if_true, if_pos he, fillsQty_append,
            ladderVolume, Level.volume_eq, ordersVolume] at mo2 ih1 ih2 ⊢
          constructor
          · omega
          · omega
        · simp only [matchLadder, if_neg hq, hc, if_true, if_neg he, ladderVolume,
            Level.volume_eq] at mo2 ⊢
          constructor
          · exact mo1
          · omega
      · have hc2 : cross lvl.price = false := by
          simpa using hc
        rw [matchLadder_no_cross _ _ _ _ _ _ hc2]
        simp [fillsQty]

/-- Claim C3: partial match and conservation — BUY#1@100/50 then
SELL#2@100/30 yields exactly one trade of quantity 30 (buy 1 vs sell 2 at
100), bid volume 20 at 100 and one live order; and in general the matching
loop conserves quantity: the aggressor's remaining drop and the resting
side's volume drop both equal the total traded quantity, level-wise and
ladder-wise. -/
theorem claim_C3_partial_match_conservation :
    bookPartialMatch.tradeCount = 1 ∧
    bookPartialMatch.getTrades = [⟨1, 2, 100, 30, 0⟩] ∧
    bookPartialMatch.bidVolumeAtPrice 100 = 20 ∧
    bookPartialMatch.orderCount = 1 ∧
    (∀ (s : Side) (a : Int) (q : Int) (os : List Order),
      q - (matchOrders s a q os).2.1 = fillsQty (matchOrders s a q os).1 ∧
      ordersVolume os - ordersVolume (matchOrders s a q os).2.2 =
        fillsQty (matchOrders s a q os).1) ∧
    (∀ (cross : ℚ → Bool) (s : Side) (a : Int) (q : Int) (ls : List Level),
      q - (matchLadder cross s a q ls).2.1 = fillsQty (matchLadder cross s a q ls).1 ∧
      ladderVolume ls - ladderVolume (matchLadder cross s a q ls).2.2 =
        fillsQty (matchLadder cross s a q ls).1) := by
  exact ⟨by decide, by decide, by decide, by decide, matchOrders_conservation,
    matchLadder_conservation⟩

/-- Claim C5: modify semantics — modifying a live id to a positive quantity
returns true; unknown id or non-positive quantity returns false with no
state change; a lone BUY@100/50 modified to 75 shows bid volume 75 (and
remaining 75), then to 25 shows volume 25; with two orders queued at one
price, modify-down keeps the queue order (time priority preserved) while
modify-up re-queues the order at the tail of the same price level. -/
theorem claim_C5_modify :
    (∀ (b : Book) (id : Int) (q : Int) (o : Order),
      b.findOrder id = some o → 0 < q → (b.modifyOrder id q).1 = true) ∧
    (∀ (b : Book) (id : Int) (q : Int), q ≤ 0 → b.modifyOrder id q = (false, b)) ∧
    (∀ (b : Book) (id : Int) (q : Int), b.findOrder id = none →
      b.modifyOrder id q = (false, b)) ∧
    ((bookLoneBid.modifyOrder 1 75).1 = true ∧
      (bookLoneBid.modifyOrder 1 75).2.bidVolumeAtPrice 100 = 75 ∧
      ((bookLoneBid.modifyOrder 1 75).2.findOrder 1).map Order.qtyRemaining = some 75 ∧
      ((bookLoneBid.modifyOrder 1 75).2.modifyOrder 1 25).2.bidVolumeAtPrice 100 = 25) ∧
    (ladderIds bookTwoAtPrice.bids = [1, 2] ∧
      ladderIds (bookTwoAtPrice.modifyOrder 1 30).2.bids = [1, 2] ∧
      ladderIds (bookTwoAtPrice.modifyOrder 1 60).2.bids = [2, 1] ∧
      (bookTwoAtPrice.modifyOrder 1 60).2.bids.map Level.price = [100] ∧
      ((bookTwoAtPrice.modifyOrder 1 60).2.findOrder 1).map Order.qtyRemaining = some 60) :=
  ⟨modifyOrder_live, modifyOrder_nonpos, modifyOrder_unknown, by decide, by decide⟩

/-- Witness for C5: the general clauses at the lone-bid book — modifying
live id 1 to 75 succeeds; modifying to 0 and modifying unknown id 99 are
rejected without touching the book. -/
theorem claim_C5_modify_witness :
    (bookLoneBid.modifyOrder 1 75).1 = true ∧
    bookLoneBid.modifyOrder 1 0 = (false, bookLoneBid) ∧
    bookLoneBid.modifyOrder 99 10 = (false, bookLoneBid) :=
  ⟨claim_C5_modify.1 bookLoneBid 1 75 ⟨1, Side.buy, 100, 50, 0⟩ (by decide) (by decide),
   claim_C5_modify.2.1 bookLoneBid 1 0 (by decide),
   claim_C5_modify.2.2.1 bookLoneBid 99 10 (by decide)⟩
